import Mathlib

/-!
Verification development for the cleanflight profiler
(`src/cleanflight_profiler.go`).

The program decodes a binary sampling-profiler log (frames of the form
`0x3E b0 b1 b2 b3`, little-endian 32-bit program counter), aggregates
per-address sample counts, resolves addresses to source locations through
an external `addr2line` subprocess, and prints ranked reports.

Bytes are modelled as natural numbers (`'>' = 0x3E = 62`), machine
integers as `Nat` with explicit `% 2^32` where the Go `uint32`
arithmetic can wrap, strings as `List Char`, Go maps as association
lists, and the external subprocess by its observable reply-line stream.
-/

namespace CleanflightProfiler

/-- The `uint32` modulus: Go counters in this program are `uint32`. -/
def u32Mod : Nat := 4294967296

/-- Little-endian 32-bit value of four bytes, as read by
`binary.Read(reader, binary.LittleEndian, &lastEntry.pc)`. -/
def leU32 (b0 b1 b2 b3 : Nat) : Nat :=
  b0 + 256 * b1 + 65536 * b2 + 16777216 * b3

/-- The loop of `parseProfileLog`: one byte is read per iteration; a
pending `lastEntry` (the previous frame's pc) is emitted only when the
byte just read is end-of-stream or another start marker `'>' = 62`.
A start marker causes four payload bytes to be consumed as the
little-endian pc; if fewer than four bytes remain the loop breaks
without emitting the pending partial frame. -/
def parseProfileLogLoop : List Nat → Option Nat → List Nat
  | [], some pc => [pc]
  | [], none => []
  | c :: rest, lastEntry =>
    let out : List Nat :=
      match lastEntry with
      | some pc => if c = 62 then [pc] else []
      | none => []
    if c = 62 then
      match rest with
      | b0 :: b1 :: b2 :: b3 :: rest2 =>
        out ++ parseProfileLogLoop rest2 (some (leU32 b0 b1 b2 b3))
      | _ => out
    else
      out ++ parseProfileLogLoop rest none

/-- `parseProfileLog`: the frame decoder, from the whole byte stream to
the emitted record sequence (the stream of `LogEntry.pc` values sent on
the output channel, excluding the final `nil` sentinel). -/
def parseProfileLog (input : List Nat) : List Nat :=
  parseProfileLogLoop input none

theorem parseProfileLogLoop_nil_some (pc : Nat) :
    parseProfileLogLoop [] (some pc) = [pc] := rfl

theorem parseProfileLogLoop_nil_none :
    parseProfileLogLoop [] none = [] := rfl

/-- A pending frame is emitted exactly when the stream is exhausted or
the next byte is a start marker; the rest of the computation does not
depend on the pending frame. -/
theorem parseProfileLogLoop_some (s : List Nat) (pc : Nat) :
    parseProfileLogLoop s (some pc)
      = (match s with
         | [] => [pc]
         | c :: _ => if c = 62 then [pc] else []) ++ parseProfileLogLoop s none := by
  match s with
  | [] => rfl
  | c :: rest =>
    by_cases h : c = 62
    · subst h
      conv_lhs => rw [parseProfileLogLoop.eq_def]
      conv_rhs => rw [parseProfileLogLoop.eq_def]
      match rest with
      | [] => simp
      | [b0] => simp
      | [b0, b1] => simp
      | [b0, b1, b2] => simp
      | b0 :: b1 :: b2 :: b3 :: rest2 => simp
    · conv_lhs => rw [parseProfileLogLoop.eq_def]
      conv_rhs => rw [parseProfileLogLoop.eq_def]
      simp [h]

/-- A non-marker byte scanned while no frame is pending is skipped. -/
theorem parseProfileLogLoop_skip {c : Nat} (rest : List Nat) (h : c ≠ 62) :
    parseProfileLogLoop (c :: rest) none = parseProfileLogLoop rest none := by
  conv_lhs => rw [parseProfileLogLoop.eq_def]
  simp [h]

/-- A start marker followed by at least four bytes consumes the four
payload bytes and leaves their little-endian value pending. -/
theorem parseProfileLogLoop_frame (b0 b1 b2 b3 : Nat) (rest : List Nat) :
    parseProfileLogLoop (62 :: b0 :: b1 :: b2 :: b3 :: rest) none
      = parseProfileLogLoop rest (some (leU32 b0 b1 b2 b3)) := by
  conv_lhs => rw [parseProfileLogLoop.eq_def]
  simp

/-- A start marker with fewer than four remaining bytes produces
nothing: `binary.Read` fails and the loop breaks. -/
theorem parseProfileLogLoop_short :
    ∀ tail : List Nat, tail.length < 4 →
      parseProfileLogLoop (62 :: tail) none = []
  | [], _ => by decide
  | [b0], _ => by
    conv_lhs => rw [parseProfileLogLoop.eq_def]
    simp [parseProfileLogLoop]
  | [b0, b1], _ => by
    conv_lhs => rw [parseProfileLogLoop.eq_def]
    simp [parseProfileLogLoop]
  | [b0, b1, b2], _ => by
    conv_lhs => rw [parseProfileLogLoop.eq_def]
    simp [parseProfileLogLoop]
  | b0 :: b1 :: b2 :: b3 :: rest, h => by
    simp only [List.length_cons] at h
    omega

/-- The accepted-frame step at the level of `parseProfileLog`: a frame
whose four payload bytes are immediately followed by another start
marker is emitted, and decoding continues at that marker. -/
theorem parseProfileLog_frame_then_marker (b0 b1 b2 b3 : Nat) (rest : List Nat) :
    parseProfileLog (62 :: b0 :: b1 :: b2 :: b3 :: 62 :: rest)
      = leU32 b0 b1 b2 b3 :: parseProfileLog (62 :: rest) := by
  unfold parseProfileLog
  rw [parseProfileLogLoop_frame, parseProfileLogLoop_some]
  simp

/-- The accepted-frame step at end-of-stream: a frame whose four payload
bytes end the stream is emitted. -/
theorem parseProfileLog_frame_then_eos (b0 b1 b2 b3 : Nat) :
    parseProfileLog [62, b0, b1, b2, b3] = [leU32 b0 b1 b2 b3] := by
  unfold parseProfileLog
  rw [parseProfileLogLoop_frame, parseProfileLogLoop_nil_some]

/-- The discarded-frame step: a frame followed by a byte that is neither
end-of-stream nor a start marker is dropped, and scanning resumes at
that byte. -/
theorem parseProfileLog_frame_then_garbage {c : Nat} (b0 b1 b2 b3 : Nat)
    (rest : List Nat) (h : c ≠ 62) :
    parseProfileLog (62 :: b0 :: b1 :: b2 :: b3 :: c :: rest)
      = parseProfileLog (c :: rest) := by
  unfold parseProfileLog
  rw [parseProfileLogLoop_frame, parseProfileLogLoop_some]
  simp [h]

/-- Leading garbage (non-marker bytes before any frame) is skipped. -/
theorem parseProfileLog_leading_noise (noise : List Nat) (s : List Nat)
    (h : ∀ b ∈ noise, b ≠ 62) :
    parseProfileLog (noise ++ s) = parseProfileLog s := by
  induction noise with
  | nil => rfl
  | cons b tail ih =>
    have hb : b ≠ 62 := h b (List.mem_cons_self b tail)
    calc parseProfileLog (b :: (tail ++ s))
        = parseProfileLogLoop (tail ++ s) none := parseProfileLogLoop_skip _ hb
      _ = parseProfileLog s := ih fun x hx => h x (List.mem_cons_of_mem b hx)

/-- A well-formed frame stream: each frame is a start marker plus four
payload bytes, each frame immediately followed by the next marker or
end-of-stream. -/
def framesToBytes : List (Nat × Nat × Nat × Nat) → List Nat
  | [] => []
  | (b0, b1, b2, b3) :: rest => 62 :: b0 :: b1 :: b2 :: b3 :: framesToBytes rest

/-- The little-endian value carried by one frame. -/
def frameValue : Nat × Nat × Nat × Nat → Nat
  | (b0, b1, b2, b3) => leU32 b0 b1 b2 b3

/-- Decoding a stream consisting only of well-formed frames yields
exactly one record per frame, in order. -/
theorem parseProfileLog_framesToBytes (frames : List (Nat × Nat × Nat × Nat)) :
    parseProfileLog (framesToBytes frames) = frames.map frameValue := by
  induction frames with
  | nil => rfl
  | cons f rest ih =>
    obtain ⟨b0, b1, b2, b3⟩ := f
    show parseProfileLog (62 :: b0 :: b1 :: b2 :: b3 :: framesToBytes rest)
      = leU32 b0 b1 b2 b3 :: rest.map frameValue
    unfold parseProfileLog
    rw [parseProfileLogLoop_frame, parseProfileLogLoop_some]
    match rest with
    | [] => rfl
    | g :: rest2 =>
      obtain ⟨g0, g1, g2, g3⟩ := g
      simpa [framesToBytes] using ih

/-! ### Association-list model of Go maps

Go map reads return the zero value for missing keys; writes insert or
replace. `lookupEntry`/`setEntry` model this; `sumBy` is the meta-level
sum of a value projection over all entries, used to state the
conservation invariants. -/

/-- First-match lookup in an association list (Go map read). -/
def lookupEntry {κ ν : Type} [DecidableEq κ] : List (κ × ν) → κ → Option ν
  | [], _ => none
  | (k, v) :: rest, key => if key = k then some v else lookupEntry rest key

/-- Replace the first entry for a key, or append a new entry
(Go map write). -/
def setEntry {κ ν : Type} [DecidableEq κ] : List (κ × ν) → κ → ν → List (κ × ν)
  | [], key, v => [(key, v)]
  | (k, w) :: rest, key, v =>
    if key = k then (key, v) :: rest else (k, w) :: setEntry rest key v

/-- Sum of a projection of the values of an association list. -/
def sumBy {κ ν : Type} (f : ν → Nat) (l : List (κ × ν)) : Nat :=
  (l.map fun kv => f kv.2).sum

theorem lookupEntry_setEntry {κ ν : Type} [DecidableEq κ]
    (l : List (κ × ν)) (k : κ) (v : ν) (key : κ) :
    lookupEntry (setEntry l k v) key
      = if key = k then some v else lookupEntry l key := by
  induction l with
  | nil => simp [setEntry, lookupEntry]
  | cons hd tl ih =>
    obtain ⟨k', w⟩ := hd
    by_cases hk : k = k'
    · subst hk
      by_cases hkey : key = k <;> simp [setEntry, lookupEntry, hkey]
    · by_cases hkey : key = k'
      · subst hkey
        simp [setEntry, lookupEntry, hk, Ne.symm hk]
      · simp [setEntry, lookupEntry, hk, hkey, ih]

/-- Updating one entry changes the sum by the difference between the new
value and the value previously stored for that key (0 if absent). -/
theorem sumBy_setEntry {κ ν : Type} [DecidableEq κ] (f : ν → Nat)
    (l : List (κ × ν)) (k : κ) (v : ν) :
    sumBy f (setEntry l k v) + (lookupEntry l k).elim 0 f = sumBy f l + f v := by
  induction l with
  | nil => simp [setEntry, lookupEntry, sumBy]
  | cons hd tl ih =>
    obtain ⟨k', w⟩ := hd
    by_cases hk : k = k'
    · subst hk
      simp [setEntry, lookupEntry, sumBy]
      omega
    · simp only [setEntry, lookupEntry, if_neg hk, sumBy, List.map_cons, List.sum_cons] at *
      omega

/-! ### Sample aggregator (`groupAddresses`)

`groupAddresses` drains the record stream, incrementing a per-address
`uint32` counter for each record (`addresses[entry.pc]++`). -/

/-- Go map read with `uint32` zero value. -/
def getAddressCount (addressCounts : List (Nat × Nat)) (address : Nat) : Nat :=
  (lookupEntry addressCounts address).getD 0

/-- `groupAddresses`: fold the record sequence into the address→count
map; each increment is `uint32` arithmetic. -/
def groupAddresses (records : List Nat) : List (Nat × Nat) :=
  records.foldl
    (fun addresses pc => setEntry addresses pc ((getAddressCount addresses pc + 1) % u32Mod))
    []

theorem getAddressCount_setEntry (m : List (Nat × Nat)) (k v a : Nat) :
    getAddressCount (setEntry m k v) a = if a = k then v else getAddressCount m a := by
  unfold getAddressCount
  rw [lookupEntry_setEntry]
  by_cases h : a = k <;> simp [h]

theorem groupAddresses_fold (records : List Nat) :
    ∀ (m : List (Nat × Nat)) (a : Nat), getAddressCount m a < u32Mod →
      getAddressCount
          (records.foldl
            (fun addresses pc =>
              setEntry addresses pc ((getAddressCount addresses pc + 1) % u32Mod)) m) a
        = (getAddressCount m a + records.count a) % u32Mod := by
  induction records with
  | nil =>
    intro m a h
    simp [List.count_nil, Nat.mod_eq_of_lt h]
  | cons pc rest ih =>
    intro m a h
    rw [List.foldl_cons]
    have hlt : getAddressCount (setEntry m pc ((getAddressCount m pc + 1) % u32Mod)) a
        < u32Mod := by
      rw [getAddressCount_setEntry]
      by_cases hpc : a = pc
      · simp only [if_pos hpc]
        exact Nat.mod_lt _ (by unfold u32Mod; omega)
      · simpa [hpc] using h
    rw [ih _ a hlt, getAddressCount_setEntry, List.count_cons]
    by_cases hpc : a = pc
    · subst hpc
      simp only [if_pos rfl, beq_self_eq_true, if_pos]
      unfold u32Mod
      omega
    · simp only [if_neg hpc]
      have hne : pc ≠ a := fun hb => hpc hb.symm
      simp [hne]

/-- The aggregated count for an address is the number of its records,
as a `uint32`. -/
theorem getAddressCount_groupAddresses (records : List Nat) (a : Nat) :
    getAddressCount (groupAddresses records) a = records.count a % u32Mod := by
  unfold groupAddresses
  rw [groupAddresses_fold records [] a (by unfold getAddressCount lookupEntry u32Mod; simp)]
  simp [getAddressCount, lookupEntry]

/-! ### Text processing used by `parseLineInfo`

`strconv.ParseUint(s, 0, 32)` (base auto-detection, 32-bit bound),
`strconv.ParseUint(s, 10, 32)`, the anchored regular expression
`^(.+):(\d+|\?+)$` with leftmost-greedy capture, and
`ReplaceAllString` of the anchored `^.*/\./` with the empty string.
Strings are `List Char`. -/

/-- Go `lower`: ASCII lowercasing by setting bit 0x20. -/
def lowerChar (c : Char) : Char := Char.ofNat (c.toNat ||| 32)

/-- Value of one digit character, for bases up to 36; `none` models the
`ErrSyntax` branch of Go's digit loop. -/
def digitVal (c : Char) : Option Nat :=
  if 48 ≤ c.toNat ∧ c.toNat ≤ 57 then some (c.toNat - 48)
  else if 97 ≤ (lowerChar c).toNat ∧ (lowerChar c).toNat ≤ 122 then
    some ((lowerChar c).toNat - 97 + 10)
  else none

/-- The digit-accumulation loop of `ParseUint`: rejects invalid digits
and values exceeding `maxVal` (`ErrRange` also surfaces as a non-nil
error to the caller); underscores are skipped when the requested base
was 0, recorded for the final `underscoreOK` check. -/
def runDigits (base : Nat) (base0 : Bool) (maxVal : Nat) :
    List Char → Nat → Bool → Option (Nat × Bool)
  | [], n, sawU => some (n, sawU)
  | c :: rest, n, sawU =>
    if c = '_' ∧ base0 then runDigits base base0 maxVal rest n true
    else
      match digitVal c with
      | none => none
      | some d =>
        if d ≥ base then none
        else if n * base + d > maxVal then none
        else runDigits base base0 maxVal rest (n * base + d) sawU

/-- Is a character a decimal digit? -/
def isDecDigit (c : Char) : Bool := 48 ≤ c.toNat ∧ c.toNat ≤ 57

/-- The scanning loop of Go's `underscoreOK`: `saw` is the class of the
previous character (a `0` for digit or base prefix, `_` for underscore,
`^` for start, `!` otherwise). -/
def underscoreOKLoop (hex : Bool) : List Char → Char → Bool
  | [], saw => saw ≠ '_'
  | c :: rest, saw =>
    if isDecDigit c ∨ (hex ∧ 97 ≤ (lowerChar c).toNat ∧ (lowerChar c).toNat ≤ 102) then
      underscoreOKLoop hex rest '0'
    else if c = '_' then
      if saw ≠ '0' then false else underscoreOKLoop hex rest '_'
    else if saw = '_' then false
    else underscoreOKLoop hex rest '!'

/-- Go `underscoreOK`: underscores may appear only between digits or
between a base prefix and a digit. -/
def underscoreOK (s : List Char) : Bool :=
  let s1 :=
    match s with
    | c :: rest => if c = '-' ∨ c = '+' then rest else s
    | [] => s
  match s1 with
  | c0 :: c1 :: rest =>
    if c0 = '0' ∧ (lowerChar c1 = 'b' ∨ lowerChar c1 = 'o' ∨ lowerChar c1 = 'x') then
      underscoreOKLoop (lowerChar c1 = 'x') rest '0'
    else underscoreOKLoop false s1 '^'
  | _ => underscoreOKLoop false s1 '^'

/-- `strconv.ParseUint(s, 0, 32)`: base auto-detection (`0x`/`0o`/`0b`
prefixes, legacy leading-`0` octal, else decimal), 32-bit range check,
underscore validation. `none` models any non-nil error. -/
def parseUint0 (s : List Char) : Option Nat :=
  if s = [] then none
  else
    let p : Nat × List Char :=
      match s with
      | '0' :: c1 :: c2 :: rest =>
        if lowerChar c1 = 'b' then (2, c2 :: rest)
        else if lowerChar c1 = 'o' then (8, c2 :: rest)
        else if lowerChar c1 = 'x' then (16, c2 :: rest)
        else (8, c1 :: c2 :: rest)
      | '0' :: rest => (8, rest)
      | _ => (10, s)
    match runDigits p.1 true (u32Mod - 1) p.2 0 false with
    | none => none
    | some (n, sawU) => if sawU ∧ ¬ underscoreOK s then none else some n

/-- `strconv.ParseUint(s, 10, 32)`, used for the line-number field:
plain decimal, no underscores, 32-bit range check. -/
def parseUintDec (s : List Char) : Option Nat :=
  if s = [] then none
  else
    match runDigits 10 false (u32Mod - 1) s 0 false with
    | none => none
    | some (n, _) => some n

/-- Does `(\d+|\?+)$` match a (nonempty, homogeneous) suffix? -/
def lineFieldValid (s : List Char) : Bool :=
  (¬ s.isEmpty) ∧ (s.all isDecDigit ∨ s.all fun c => c = '?')

/-- Rightmost split of the line at a `:` whose suffix matches
`(\d+|\?+)$`; returns the text before the colon and the suffix. The
rightmost split realizes the greedy `(.+)` of `^(.+):(\d+|\?+)$`. -/
def splitRightmost : List Char → Option (List Char × List Char)
  | [] => none
  | c :: rest =>
    match splitRightmost rest with
    | some (pre, suf) => some (c :: pre, suf)
    | none =>
      if c = ':' ∧ lineFieldValid rest then some ([], rest) else none

/-- `FindStringSubmatch` of `^(.+):(\d+|\?+)$`: `some (path, field)` for
a match (`matches[1]`, `matches[2]`), `none` when the reply line does
not match (the fatal-panic branch). `(.+)` requires a nonempty prefix. -/
def filenameLineSplit (s : List Char) : Option (List Char × List Char) :=
  match splitRightmost s with
  | some (pre, suf) => if pre = [] then none else some (pre, suf)
  | none => none

/-- Remainder of the string after the last occurrence of `/./`, if any:
the greedy `.*` of `^.*/\./` extends the single anchored match through
the last such occurrence. -/
def afterLastDotSlash : List Char → Option (List Char)
  | [] => none
  | c :: rest =>
    match afterLastDotSlash rest with
    | some r => some r
    | none =>
      match c, rest with
      | '/', '.' :: '/' :: r2 => some r2
      | _, _ => none

/-- `pathPrefixRemove.ReplaceAllString(s, "")` for the anchored
`^.*/\./`: strip everything through the last `/./`; no occurrence means
no match, the string is unchanged. -/
def pathPrefixRemove (s : List Char) : List Char :=
  (afterLastDotSlash s).getD s

/-- `minU32` from the source. -/
def minU32 (a b : Nat) : Nat := if a < b then a else b

/-! ### Statistics model (`ProfileStats` and `parseLineInfo`) -/

/-- A normalized source filename (File Identity). -/
structure FileDefinition where
  filename : List Char
  deriving DecidableEq

/-- Function name plus owning file (Function Identity). -/
structure FunctionDefinition where
  name : List Char
  file : FileDefinition
  deriving DecidableEq

/-- Function plus line number (Line Identity). -/
structure LineDefinition where
  lineNum : Nat
  function : FunctionDefinition
  deriving DecidableEq

/-- Occurrence count for a file or function (`uint32`). -/
structure EntityStatistics where
  count : Nat
  deriving DecidableEq

/-- Per-line statistics: representative smallest address plus count. -/
structure LineStatistics where
  smallestAddress : Nat
  count : Nat
  deriving DecidableEq

/-- A raw address used as a map key. -/
structure AddressDefinition where
  address : Nat
  deriving DecidableEq

/-- The aggregate root: four mappings plus the overall total. -/
structure ProfileStats where
  addresses : List (AddressDefinition × EntityStatistics)
  lines : List (LineDefinition × LineStatistics)
  functions : List (FunctionDefinition × EntityStatistics)
  files : List (FileDefinition × EntityStatistics)
  overall : EntityStatistics
  deriving DecidableEq

/-- The empty `ProfileStats` allocated by
`translateAddressesToLineStats`. -/
def emptyProfileStats : ProfileStats :=
  { addresses := [], lines := [], functions := [], files := [], overall := ⟨0⟩ }

/-- The per-reply update of `parseLineInfo`: path normalization, line
number parse (`?`/overflow → 0), then the four map updates (cumulative
`uint32` addition for file/function/line, plain assignment for the
address entry, minimum tracking for the line's representative address)
and the overall total. -/
def applyReply (stats : ProfileStats) (address addressCount : Nat)
    (functionName rawFilename lineField : List Char) : ProfileStats :=
  let filename := pathPrefixRemove rawFilename
  let lineNum := (parseUintDec lineField).getD 0
  let fileDef : FileDefinition := ⟨filename⟩
  let functionDef : FunctionDefinition := ⟨functionName, fileDef⟩
  let lineDef : LineDefinition := ⟨lineNum, functionDef⟩
  let addressDef : AddressDefinition := ⟨address⟩
  let fileCount :=
    (((lookupEntry stats.files fileDef).getD ⟨0⟩).count + addressCount) % u32Mod
  let functionCount :=
    (((lookupEntry stats.functions functionDef).getD ⟨0⟩).count + addressCount) % u32Mod
  let lineStats : LineStatistics :=
    match lookupEntry stats.lines lineDef with
    | some ls => ⟨minU32 ls.smallestAddress address, (ls.count + addressCount) % u32Mod⟩
    | none => ⟨address, (0 + addressCount) % u32Mod⟩
  { addresses := setEntry stats.addresses addressDef ⟨addressCount⟩
  , lines := setEntry stats.lines lineDef lineStats
  , functions := setEntry stats.functions functionDef ⟨functionCount⟩
  , files := setEntry stats.files fileDef ⟨fileCount⟩
  , overall := ⟨(stats.overall.count + addressCount) % u32Mod⟩ }

/-- Outcome of the reply-consuming loop: `done` is normal termination
(scanner exhausted), `badAddress` is the `break` after an unparseable
address line (an error message is printed when the line is nonempty and
the accumulated statistics are kept), `panicked` is a fatal `panic`
that crashes the process. -/
inductive ResolveResult where
  | done (stats : ProfileStats)
  | badAddress (line : List Char) (stats : ProfileStats)
  | panicked (line : List Char)
  deriving DecidableEq

def ResolveResult.isDone : ResolveResult → Bool
  | .done _ => true
  | _ => false

def ResolveResult.isPanic : ResolveResult → Bool
  | .panicked _ => true
  | _ => false

/-- The statistics available when the loop returns (`done` or
`badAddress` both reach `done <- true` with the shared `stats`
pointer); a panic never returns. -/
def ResolveResult.endStats : ResolveResult → ProfileStats
  | .done s => s
  | .badAddress _ s => s
  | .panicked _ => emptyProfileStats

/-- `parseLineInfo`: consume symbolizer reply lines in triples
(address echo, function name, `filename:line`). The address is parsed
with `ParseUint(_, 0, 32)`; failure breaks the loop. The missing-key
map read yields count 0, and the `addressCount < 0` guard is kept
verbatim from the source (it can never hold). When the scanner is
exhausted mid-triple, `scanner.Text()` yields the empty string. An
unmatched `filename:line` line is a fatal panic. -/
def parseLineInfo (addressCounts : List (Nat × Nat)) :
    List (List Char) → ProfileStats → ResolveResult
  | [], stats => .done stats
  | addressLine :: rest, stats =>
    match parseUint0 addressLine with
    | none => .badAddress addressLine stats
    | some address =>
      let addressCount := getAddressCount addressCounts address
      if addressCount < 0 then
        .panicked addressLine
      else
        match rest with
        | [] =>
          match filenameLineSplit [] with
          | none => .panicked []
          | some m =>
            parseLineInfo addressCounts []
              (applyReply stats address addressCount [] m.1 m.2)
        | [functionName] =>
          match filenameLineSplit [] with
          | none => .panicked []
          | some m =>
            parseLineInfo addressCounts []
              (applyReply stats address addressCount functionName m.1 m.2)
        | functionName :: filenameLine :: rest2 =>
          match filenameLineSplit filenameLine with
          | none => .panicked filenameLine
          | some m =>
            parseLineInfo addressCounts rest2
              (applyReply stats address addressCount functionName m.1 m.2)

/-! ### Conservation of counts across the four mappings -/

theorem getD_count_eq_elim {κ : Type} [DecidableEq κ]
    (l : List (κ × EntityStatistics)) (k : κ) :
    ((lookupEntry l k).getD ⟨0⟩).count = (lookupEntry l k).elim 0 EntityStatistics.count := by
  cases lookupEntry l k <;> rfl

/-- A cumulative `uint32` update of one entry raises the sum by the
added count, modulo `2^32`, and never beyond the unwrapped sum. -/
theorem sumBy_setEntry_mod {κ ν : Type} [DecidableEq κ] (f : ν → Nat)
    (l : List (κ × ν)) (k : κ) (v : ν) (cnt : Nat)
    (hv : f v = ((lookupEntry l k).elim 0 f + cnt) % u32Mod) :
    sumBy f (setEntry l k v) % u32Mod = (sumBy f l + cnt) % u32Mod ∧
    sumBy f (setEntry l k v) ≤ sumBy f l + cnt := by
  have h := sumBy_setEntry f l k v
  rw [hv] at h
  simp only [u32Mod] at *
  constructor <;> omega

/-- One reply shifts every per-map sum and the overall total by the
reply's address count (as `uint32` arithmetic). -/
theorem applyReply_sums (stats : ProfileStats) (address cnt : Nat)
    (functionName rawFilename lineField : List Char) :
    (sumBy EntityStatistics.count
          (applyReply stats address cnt functionName rawFilename lineField).files % u32Mod
        = (sumBy EntityStatistics.count stats.files + cnt) % u32Mod
      ∧ sumBy EntityStatistics.count
          (applyReply stats address cnt functionName rawFilename lineField).files
        ≤ sumBy EntityStatistics.count stats.files + cnt)
    ∧ (sumBy EntityStatistics.count
          (applyReply stats address cnt functionName rawFilename lineField).functions % u32Mod
        = (sumBy EntityStatistics.count stats.functions + cnt) % u32Mod
      ∧ sumBy EntityStatistics.count
          (applyReply stats address cnt functionName rawFilename lineField).functions
        ≤ sumBy EntityStatistics.count stats.functions + cnt)
    ∧ (sumBy LineStatistics.count
          (applyReply stats address cnt functionName rawFilename lineField).lines % u32Mod
        = (sumBy LineStatistics.count stats.lines + cnt) % u32Mod
      ∧ sumBy LineStatistics.count
          (applyReply stats address cnt functionName rawFilename lineField).lines
        ≤ sumBy LineStatistics.count stats.lines + cnt)
    ∧ (applyReply stats address cnt functionName rawFilename lineField).overall.count
        = (stats.overall.count + cnt) % u32Mod := by
  refine ⟨?_, ?_, ?_, rfl⟩
  · exact sumBy_setEntry_mod EntityStatistics.count stats.files _ _ cnt
      (by rw [show (EntityStatistics.mk
            ((((lookupEntry stats.files ⟨pathPrefixRemove rawFilename⟩).getD ⟨0⟩).count
              + cnt) % u32Mod)).count
          = (((lookupEntry stats.files ⟨pathPrefixRemove rawFilename⟩).getD ⟨0⟩).count
              + cnt) % u32Mod from rfl, getD_count_eq_elim])
  · exact sumBy_setEntry_mod EntityStatistics.count stats.functions _ _ cnt
      (by rw [show (EntityStatistics.mk
            ((((lookupEntry stats.functions
                ⟨functionName, ⟨pathPrefixRemove rawFilename⟩⟩).getD ⟨0⟩).count
              + cnt) % u32Mod)).count
          = (((lookupEntry stats.functions
                ⟨functionName, ⟨pathPrefixRemove rawFilename⟩⟩).getD ⟨0⟩).count
              + cnt) % u32Mod from rfl, getD_count_eq_elim])
  · refine sumBy_setEntry_mod LineStatistics.count stats.lines _ _ cnt ?_
    cases hl : lookupEntry stats.lines
        ⟨(parseUintDec lineField).getD 0, ⟨functionName, ⟨pathPrefixRemove rawFilename⟩⟩⟩ <;>
      simp [applyReply, hl]

/-- The reply-line stream produced by a list of three-line replies. -/
def repliesToLines : List (List Char × List Char × List Char) → List (List Char)
  | [] => []
  | (a, f, l) :: rest => a :: f :: l :: repliesToLines rest

/-- Total count the map assigns to the addresses echoed by a list of
replies. -/
def repTotal (addressCounts : List (Nat × Nat))
    (reps : List (List Char × List Char × List Char)) : Nat :=
  (reps.map fun r => getAddressCount addressCounts ((parseUint0 r.1).getD 0)).sum

/-- Sum of all counts of the address→count map. -/
def countsTotal (addressCounts : List (Nat × Nat)) : Nat :=
  (addressCounts.map Prod.snd).sum

/-- One well-formed reply advances the loop by exactly one
`applyReply`. -/
theorem parseLineInfo_step (addressCounts : List (Nat × Nat))
    (aL fL lL : List Char) (rest : List (List Char)) (stats : ProfileStats)
    (v : Nat) (hv : parseUint0 aL = some v)
    (m : List Char × List Char) (hm : filenameLineSplit lL = some m) :
    parseLineInfo addressCounts (aL :: fL :: lL :: rest) stats
      = parseLineInfo addressCounts rest
          (applyReply stats v (getAddressCount addressCounts v) fL m.1 m.2) := by
  conv_lhs => rw [parseLineInfo.eq_def]
  simp [hv, hm, Nat.not_lt_zero]

/-- Loop invariant: over any list of well-formed replies, the loop ends
normally and each per-map sum and the overall total advance by the
total count of the processed replies (`uint32` arithmetic; the sums are
also bounded by their unwrapped values). -/
theorem parseLineInfo_wellFormed :
    ∀ (reps : List (List Char × List Char × List Char))
      (addressCounts : List (Nat × Nat)) (stats : ProfileStats),
      (∀ r ∈ reps, (parseUint0 r.1).isSome = true
        ∧ (filenameLineSplit r.2.2).isSome = true) →
      stats.overall.count < u32Mod →
      (parseLineInfo addressCounts (repliesToLines reps) stats).isDone = true
      ∧ sumBy EntityStatistics.count
            (parseLineInfo addressCounts (repliesToLines reps) stats).endStats.files % u32Mod
          = (sumBy EntityStatistics.count stats.files + repTotal addressCounts reps) % u32Mod
      ∧ sumBy EntityStatistics.count
            (parseLineInfo addressCounts (repliesToLines reps) stats).endStats.files
          ≤ sumBy EntityStatistics.count stats.files + repTotal addressCounts reps
      ∧ sumBy EntityStatistics.count
            (parseLineInfo addressCounts (repliesToLines reps) stats).endStats.functions % u32Mod
          = (sumBy EntityStatistics.count stats.functions + repTotal addressCounts reps) % u32Mod
      ∧ sumBy EntityStatistics.count
            (parseLineInfo addressCounts (repliesToLines reps) stats).endStats.functions
          ≤ sumBy EntityStatistics.count stats.functions + repTotal addressCounts reps
      ∧ sumBy LineStatistics.count
            (parseLineInfo addressCounts (repliesToLines reps) stats).endStats.lines % u32Mod
          = (sumBy LineStatistics.count stats.lines + repTotal addressCounts reps) % u32Mod
      ∧ sumBy LineStatistics.count
            (parseLineInfo addressCounts (repliesToLines reps) stats).endStats.lines
          ≤ sumBy LineStatistics.count stats.lines + repTotal addressCounts reps
      ∧ (parseLineInfo addressCounts (repliesToLines reps) stats).endStats.overall.count
          = (stats.overall.count + repTotal addressCounts reps) % u32Mod := by
  intro reps
  induction reps with
  | nil =>
    intro addressCounts stats _ hov
    refine ⟨rfl, ?_, ?_, ?_, ?_, ?_, ?_, ?_⟩ <;>
      simp [repliesToLines, parseLineInfo, ResolveResult.endStats, repTotal,
        Nat.mod_eq_of_lt hov]
  | cons r rest ih =>
    intro addressCounts stats h hov
    obtain ⟨aL, fL, lL⟩ := r
    obtain ⟨hparse, hsplit⟩ := h _ (List.mem_cons_self _ _)
    obtain ⟨v, hv⟩ := Option.isSome_iff_exists.mp hparse
    obtain ⟨m, hm⟩ := Option.isSome_iff_exists.mp hsplit
    have hstep := parseLineInfo_step addressCounts aL fL lL (repliesToLines rest)
      stats v hv m hm
    have hrt : repTotal addressCounts ((aL, fL, lL) :: rest)
        = getAddressCount addressCounts v + repTotal addressCounts rest := by
      simp [repTotal, hv]
    have happ := applyReply_sums stats v (getAddressCount addressCounts v) fL m.1 m.2
    have hov' : (applyReply stats v (getAddressCount addressCounts v) fL m.1 m.2).overall.count
        < u32Mod := by
      rw [happ.2.2.2]
      exact Nat.mod_lt _ (by unfold u32Mod; omega)
    have hih := ih addressCounts
      (applyReply stats v (getAddressCount addressCounts v) fL m.1 m.2)
      (fun x hx => h x (List.mem_cons_of_mem _ hx)) hov'
    rw [show repliesToLines ((aL, fL, lL) :: rest)
        = aL :: fL :: lL :: repliesToLines rest from rfl, hstep, hrt]
    obtain ⟨hdone, hf1, hf2, hfn1, hfn2, hl1, hl2, hovf⟩ := hih
    obtain ⟨⟨haf1, haf2⟩, ⟨hafn1, hafn2⟩, ⟨hal1, hal2⟩, haov⟩ := happ
    refine ⟨hdone, ?_, ?_, ?_, ?_, ?_, ?_, ?_⟩ <;>
      simp only [u32Mod] at * <;> omega

/-- With distinct keys, looking each key back up returns its own
value. -/
theorem map_getAddressCount_self :
    ∀ addressCounts : List (Nat × Nat), (addressCounts.map Prod.fst).Nodup →
      addressCounts.map (fun kv => getAddressCount addressCounts kv.1)
        = addressCounts.map Prod.snd
  | [], _ => rfl
  | (k, v) :: tl, hnd => by
    have hnd1 : k ∉ tl.map Prod.fst ∧ (tl.map Prod.fst).Nodup := by
      rw [List.map_cons, List.nodup_cons] at hnd
      exact hnd
    have hhead : getAddressCount ((k, v) :: tl) k = v := by
      simp [getAddressCount, lookupEntry]
    have htail : tl.map (fun kv => getAddressCount ((k, v) :: tl) kv.1)
        = tl.map Prod.snd := by
      rw [List.map_congr_left
        (fun kv hkv => show getAddressCount ((k, v) :: tl) kv.1 = getAddressCount tl kv.1 by
          have hne : kv.1 ≠ k := fun he => hnd1.1 (he ▸ List.mem_map_of_mem Prod.fst hkv)
          simp [getAddressCount, lookupEntry, hne])]
      exact map_getAddressCount_self tl hnd1.2
    simpa [hhead] using htail

/-- When the echoed reply addresses are exactly the map keys (one reply
per key), the replies' total count is the map's total count. -/
theorem repTotal_eq_countsTotal (addressCounts : List (Nat × Nat))
    (reps : List (List Char × List Char × List Char))
    (hnd : (addressCounts.map Prod.fst).Nodup)
    (hperm : (reps.map fun r => parseUint0 r.1).Perm
      (addressCounts.map fun kv => some kv.1)) :
    repTotal addressCounts reps = countsTotal addressCounts := by
  have h2 := (hperm.map fun o : Option Nat => getAddressCount addressCounts (o.getD 0)).sum_eq
  rw [List.map_map, List.map_map] at h2
  have h3 : (addressCounts.map
      ((fun o : Option Nat => getAddressCount addressCounts (o.getD 0))
        ∘ fun kv => some kv.1))
      = addressCounts.map (fun kv => getAddressCount addressCounts kv.1) := rfl
  rw [h3, map_getAddressCount_self addressCounts hnd] at h2
  exact h2

/-! ### Report model (`printLineStats` and friends)

The percentage `float32(count*100)/float32(overall)` is a Go `float32`
division, which is total: division by zero yields `+Inf` (positive
numerator) or `NaN` (zero numerator) per IEEE-754, never a runtime
error. Finite quotients are kept symbolically as numerator/denominator,
since only the zero-denominator behavior is claimed. -/

/-- The result of a Go `float32` division. -/
inductive GoFloat32 where
  | finite (num den : Nat)
  | posInf
  | negInf
  | nan
  deriving DecidableEq

/-- Go `float32` division of two nonnegative values: total, with the
IEEE-754 zero-denominator special cases. -/
def float32Div (num den : Nat) : GoFloat32 :=
  if den = 0 then (if num = 0 then .nan else .posInf) else .finite num den

/-- Is the value one of the IEEE special values produced by a
zero-denominator division? -/
def GoFloat32.isZeroDivValue : GoFloat32 → Bool
  | .posInf => true
  | .nan => true
  | _ => false

/-- Insertion into a list sorted by descending key. -/
def insertDesc {α : Type} (key : α → Nat) (x : α) : List α → List α
  | [] => [x]
  | y :: ys => if key y < key x then x :: y :: ys else y :: insertDesc key x ys

/-- Sort by descending key (`sort.Sort` with `Less i j = count i > count j`;
tie order is unspecified in the source, so any descending sort models it). -/
def sortDesc {α : Type} (key : α → Nat) : List α → List α
  | [] => []
  | x :: xs => insertDesc key x (sortDesc key xs)

theorem length_insertDesc {α : Type} (key : α → Nat) (x : α) :
    ∀ l : List α, (insertDesc key x l).length = l.length + 1
  | [] => rfl
  | y :: ys => by
    by_cases h : key y < key x <;> simp [insertDesc, h, length_insertDesc key x ys]

theorem length_sortDesc {α : Type} (key : α → Nat) :
    ∀ l : List α, (sortDesc key l).length = l.length
  | [] => rfl
  | x :: xs => by simp [sortDesc, length_insertDesc, length_sortDesc key xs]

/-- One line of the top-lines report:
`[0xADDR] file:function:line - COUNT samples (PERCENT%)`. -/
structure PrintedLine where
  smallestAddress : Nat
  filename : List Char
  functionName : List Char
  lineNum : Nat
  count : Nat
  percent : GoFloat32
  deriving DecidableEq

/-- One line of the top-functions report. -/
structure PrintedFunction where
  filename : List Char
  functionName : List Char
  count : Nat
  percent : GoFloat32
  deriving DecidableEq

/-- One line of the top-files report. -/
structure PrintedFile where
  filename : List Char
  count : Nat
  percent : GoFloat32
  deriving DecidableEq

/-- `printLineStats`: sort the line map by descending count and print
the top `topN` entries; the percentage numerator `count*100` wraps as
`uint32`. -/
def printLineStats (stats : ProfileStats) (topN : Nat) : List PrintedLine :=
  let sorted := sortDesc (fun p => p.2.count) stats.lines
  (sorted.take topN).map fun p =>
    { smallestAddress := p.2.smallestAddress
    , filename := p.1.function.file.filename
    , functionName := p.1.function.name
    , lineNum := p.1.lineNum
    , count := p.2.count
    , percent := float32Div (p.2.count * 100 % u32Mod) stats.overall.count }

/-- `printFunctionStats`, analogously. -/
def printFunctionStats (stats : ProfileStats) (topN : Nat) : List PrintedFunction :=
  let sorted := sortDesc (fun p => p.2.count) stats.functions
  (sorted.take topN).map fun p =>
    { filename := p.1.file.filename
    , functionName := p.1.name
    , count := p.2.count
    , percent := float32Div (p.2.count * 100 % u32Mod) stats.overall.count }

/-- `printFileStats`, analogously. -/
def printFileStats (stats : ProfileStats) (topN : Nat) : List PrintedFile :=
  let sorted := sortDesc (fun p => p.2.count) stats.files
  (sorted.take topN).map fun p =>
    { filename := p.1.filename
    , count := p.2.count
    , percent := float32Div (p.2.count * 100 % u32Mod) stats.overall.count }

/-! ### Pipeline (`translateAddressesToLineStats` and `main`)

The external symbolizer is modelled by its observable behavior: either
the subprocess fails to launch (`none`) or it launches and its standard
output carries a given line stream (`some replyLines`). On launch
failure the source prints an error message and returns the

still-empty `ProfileStats`; `main` does not inspect it and prints the
report anyway. A panic in the reply-consuming goroutine kills the
process before any report is printed. -/

/-- `translateAddressesToLineStats`, abstracted over the subprocess
outcome. `none` result = the process panicked (no value is ever
returned to `main`). -/
def translateAddressesToLineStats (addressCounts : List (Nat × Nat))
    (launch : Option (List (List Char))) : Option ProfileStats :=
  match launch with
  | none => some emptyProfileStats
  | some replyLines =>
    match parseLineInfo addressCounts replyLines emptyProfileStats with
    | .done stats => some stats
    | .badAddress _ stats => some stats
    | .panicked _ => none

/-- The text report of the non-raw mode: the total-samples line and the
three ranked sections (top 50 each). -/
structure Report where
  total : Nat
  lines : List PrintedLine
  functions : List PrintedFunction
  files : List PrintedFile
  deriving DecidableEq

/-- Build the report exactly as `main` prints it. -/
def mkReport (stats : ProfileStats) : Report :=
  { total := stats.overall.count
  , lines := printLineStats stats 50
  , functions := printFunctionStats stats 50
  , files := printFileStats stats 50 }

/-- The non-raw pipeline of `main`: decode, aggregate, resolve, report.
`none` = the process died without printing a report. -/
def mainNonRaw (input : List Nat) (launch : Option (List (List Char))) :
    Option Report :=
  match translateAddressesToLineStats (groupAddresses (parseProfileLog input)) launch with
  | none => none
  | some stats => some (mkReport stats)

/-! ## Claims -/

/-- C1, counterexample: inserting the non-marker byte `0xFF` between
two well-formed frames changes the decoded record sequence — the first
frame is no longer followed by end-of-stream or a start marker, so it
is discarded. The claimed noise invariance fails as stated. -/
theorem parseProfileLog_interior_noise_changes_output :
    parseProfileLog [62, 1, 0, 0, 0, 62, 2, 0, 0, 0] = [1, 2]
    ∧ parseProfileLog [62, 1, 0, 0, 0, 255, 62, 2, 0, 0, 0] = [2] :=
  ⟨by decide, by decide⟩

/-- C1, amended: inserting arbitrary non-`0x3E` bytes before the first
frame does not change the decoded record sequence; but a non-`0x3E`
byte inserted immediately after a frame's payload causes that frame to
be discarded, with decoding resuming at the inserted byte, so noise
between frames is not invariant. -/
theorem parseProfileLog_noise_placement :
    (∀ noise s : List Nat, (∀ b ∈ noise, b ≠ 62) →
        parseProfileLog (noise ++ s) = parseProfileLog s)
    ∧ (∀ (b0 b1 b2 b3 c : Nat) (rest : List Nat), c ≠ 62 →
        parseProfileLog (62 :: b0 :: b1 :: b2 :: b3 :: c :: rest)
          = parseProfileLog (c :: rest)) :=
  ⟨parseProfileLog_leading_noise,
    fun b0 b1 b2 b3 _ rest h => parseProfileLog_frame_then_garbage b0 b1 b2 b3 rest h⟩

/-- C1, witness for the amended theorem at a concrete input. -/
theorem parseProfileLog_noise_placement_apply :
    parseProfileLog ([255] ++ [62, 1, 0, 0, 0]) = parseProfileLog [62, 1, 0, 0, 0] :=
  parseProfileLog_noise_placement.1 [255] [62, 1, 0, 0, 0] (by decide)

/-- C2: the decoder emits a record for a start marker exactly when the
marker is followed by four bytes whose end is end-of-stream or another
start marker. The four cases of what can follow a scanned marker: four
payload bytes then end-of-stream (emitted), four payload bytes then
another marker (emitted, decoding continues at that marker), fewer than
four remaining bytes (no record), and four payload bytes then any other
byte (frame discarded, scanning resumes at the terminating byte). -/
theorem parseProfileLog_frame_termination :
    (∀ b0 b1 b2 b3 : Nat, parseProfileLog [62, b0, b1, b2, b3] = [leU32 b0 b1 b2 b3])
    ∧ (∀ (b0 b1 b2 b3 : Nat) (rest : List Nat),
        parseProfileLog (62 :: b0 :: b1 :: b2 :: b3 :: 62 :: rest)
          = leU32 b0 b1 b2 b3 :: parseProfileLog (62 :: rest))
    ∧ (∀ tail : List Nat, tail.length < 4 → parseProfileLog (62 :: tail) = [])
    ∧ (∀ (b0 b1 b2 b3 c : Nat) (rest : List Nat), c ≠ 62 →
        parseProfileLog (62 :: b0 :: b1 :: b2 :: b3 :: c :: rest)
          = parseProfileLog (c :: rest)) :=
  ⟨parseProfileLog_frame_then_eos, parseProfileLog_frame_then_marker,
    fun tail h => parseProfileLogLoop_short tail h,
    fun b0 b1 b2 b3 _ rest h => parseProfileLog_frame_then_garbage b0 b1 b2 b3 rest h⟩

/-- C2, witness: a truncated marker yields nothing, and a frame
followed by garbage is discarded with scanning resuming at the
garbage byte. -/
theorem parseProfileLog_frame_termination_apply :
    parseProfileLog [62, 1, 0] = []
    ∧ parseProfileLog [62, 1, 0, 0, 0, 255] = parseProfileLog [255] :=
  ⟨parseProfileLog_frame_termination.2.2.1 [1, 0] (by decide),
    parseProfileLog_frame_termination.2.2.2 1 0 0 0 255 [] (by decide)⟩

/-- C3: a stream of only well-formed frames decodes to one record per
frame carrying the frame's little-endian value (a 32-bit value for
byte-valued payloads); the aggregator maps each address to its
occurrence count (`uint32`); and the spec's concrete scenario holds:
bytes `3E 01 00 00 00 3E 02 00 00 00` decode to `[1, 2]` and aggregate
to the map `{1 ↦ 1, 2 ↦ 1}`. -/
theorem parseProfileLog_wellFormed_decode :
    (∀ frames : List (Nat × Nat × Nat × Nat),
        parseProfileLog (framesToBytes frames) = frames.map frameValue)
    ∧ (∀ b0 b1 b2 b3 : Nat, b0 < 256 → b1 < 256 → b2 < 256 → b3 < 256 →
        leU32 b0 b1 b2 b3 < u32Mod)
    ∧ (∀ (records : List Nat) (a : Nat),
        getAddressCount (groupAddresses records) a = records.count a % u32Mod)
    ∧ (∀ (records : List Nat) (a : Nat), records.count a < u32Mod →
        getAddressCount (groupAddresses records) a = records.count a)
    ∧ parseProfileLog [62, 1, 0, 0, 0, 62, 2, 0, 0, 0] = [1, 2]
    ∧ (∀ a : Nat, getAddressCount (groupAddresses [1, 2]) a
        = if a = 1 then 1 else if a = 2 then 1 else 0) := by
  refine ⟨parseProfileLog_framesToBytes, ?_, getAddressCount_groupAddresses, ?_, by decide, ?_⟩
  · intro b0 b1 b2 b3 h0 h1 h2 h3
    unfold leU32 u32Mod
    omega
  · intro records a h
    rw [getAddressCount_groupAddresses, Nat.mod_eq_of_lt h]
  · intro a
    have hg : groupAddresses [1, 2] = [(1, 1), (2, 1)] := by decide
    rw [hg]
    by_cases h1 : a = 1
    · simp [getAddressCount, lookupEntry, h1]
    · by_cases h2 : a = 2 <;> simp [getAddressCount, lookupEntry, h1, h2]

/-- C3, witness: the byte-bound and exact-count conjuncts applied at
concrete inputs. -/
theorem parseProfileLog_wellFormed_decode_apply :
    leU32 62 0 0 0 < u32Mod
    ∧ getAddressCount (groupAddresses [1, 2]) 1 = List.count 1 [1, 2] :=
  ⟨parseProfileLog_wellFormed_decode.2.1 62 0 0 0 (by decide) (by decide) (by decide) (by decide),
    parseProfileLog_wellFormed_decode.2.2.2.1 [1, 2] 1 (by decide)⟩

/-- C4: after processing exactly one well-formed reply for every key of
the address→count map (echoed addresses a permutation of the keys), the
sums of the per-file, per-function and per-line counts and the overall
total all equal the map's total count, as `uint32` values; the
equalities are exact whenever the total fits in 32 bits. -/
theorem parseLineInfo_sum_preservation
    (addressCounts : List (Nat × Nat))
    (reps : List (List Char × List Char × List Char))
    (hnd : (addressCounts.map Prod.fst).Nodup)
    (hperm : (reps.map fun r => parseUint0 r.1).Perm
      (addressCounts.map fun kv => some kv.1))
    (hsplit : ∀ r ∈ reps, (filenameLineSplit r.2.2).isSome = true) :
    (parseLineInfo addressCounts (repliesToLines reps) emptyProfileStats).isDone = true
    ∧ sumBy EntityStatistics.count
          (parseLineInfo addressCounts (repliesToLines reps) emptyProfileStats).endStats.files
          % u32Mod
        = countsTotal addressCounts % u32Mod
    ∧ sumBy EntityStatistics.count
          (parseLineInfo addressCounts (repliesToLines reps) emptyProfileStats).endStats.functions
          % u32Mod
        = countsTotal addressCounts % u32Mod
    ∧ sumBy LineStatistics.count
          (parseLineInfo addressCounts (repliesToLines reps) emptyProfileStats).endStats.lines
          % u32Mod
        = countsTotal addressCounts % u32Mod
    ∧ (parseLineInfo addressCounts (repliesToLines reps) emptyProfileStats).endStats.overall.count
        = countsTotal addressCounts % u32Mod
    ∧ (countsTotal addressCounts < u32Mod →
        sumBy EntityStatistics.count
            (parseLineInfo addressCounts (repliesToLines reps) emptyProfileStats).endStats.files
          = countsTotal addressCounts
        ∧ sumBy EntityStatistics.count
            (parseLineInfo addressCounts (repliesToLines reps) emptyProfileStats).endStats.functions
          = countsTotal addressCounts
        ∧ sumBy LineStatistics.count
            (parseLineInfo addressCounts (repliesToLines reps) emptyProfileStats).endStats.lines
          = countsTotal addressCounts
        ∧ (parseLineInfo addressCounts (repliesToLines reps) emptyProfileStats).endStats.overall.count
          = countsTotal addressCounts) := by
  have hparse : ∀ r ∈ reps, (parseUint0 r.1).isSome = true := by
    intro r hr
    have hmem : parseUint0 r.1 ∈ reps.map fun r => parseUint0 r.1 :=
      List.mem_map_of_mem _ hr
    obtain ⟨kv, _, heq⟩ := List.mem_map.mp (hperm.mem_iff.mp hmem)
    rw [← heq]
    rfl
  have hwf := parseLineInfo_wellFormed reps addressCounts emptyProfileStats
    (fun r hr => ⟨hparse r hr, hsplit r hr⟩)
    (by unfold emptyProfileStats u32Mod; simp)
  rw [repTotal_eq_countsTotal addressCounts reps hnd hperm] at hwf
  have h0f : sumBy EntityStatistics.count emptyProfileStats.files = 0 := rfl
  have h0fn : sumBy EntityStatistics.count emptyProfileStats.functions = 0 := rfl
  have h0l : sumBy LineStatistics.count emptyProfileStats.lines = 0 := rfl
  have h0ov : emptyProfileStats.overall.count = 0 := rfl
  rw [h0f, h0fn, h0l, h0ov] at hwf
  obtain ⟨hdone, hf1, hf2, hfn1, hfn2, hl1, hl2, hov⟩ := hwf
  simp only [Nat.zero_add] at hf1 hf2 hfn1 hfn2 hl1 hl2 hov
  refine ⟨hdone, hf1, hfn1, hl1, hov, fun hlt => ?_⟩
  simp only [u32Mod] at *
  refine ⟨by omega, by omega, by omega, by omega⟩

/-- C4, witness: two keys with counts 5 and 7, replies arriving in the
opposite order; the loop completes and the overall total and file-count
sum equal 12. -/
theorem parseLineInfo_sum_preservation_apply :
    (parseLineInfo [(1, 5), (2, 7)]
        (repliesToLines
          [("0x2".toList, "g".toList, "a/./b.c:2".toList),
           ("0x1".toList, "f".toList, "c.c:?".toList)])
        emptyProfileStats).isDone = true
    ∧ (parseLineInfo [(1, 5), (2, 7)]
        (repliesToLines
          [("0x2".toList, "g".toList, "a/./b.c:2".toList),
           ("0x1".toList, "f".toList, "c.c:?".toList)])
        emptyProfileStats).endStats.overall.count = countsTotal [(1, 5), (2, 7)]
    ∧ sumBy EntityStatistics.count
        (parseLineInfo [(1, 5), (2, 7)]
          (repliesToLines
            [("0x2".toList, "g".toList, "a/./b.c:2".toList),
             ("0x1".toList, "f".toList, "c.c:?".toList)])
          emptyProfileStats).endStats.files = countsTotal [(1, 5), (2, 7)] := by
  have h := parseLineInfo_sum_preservation [(1, 5), (2, 7)]
    [("0x2".toList, "g".toList, "a/./b.c:2".toList),
     ("0x1".toList, "f".toList, "c.c:?".toList)]
    (by decide) (by decide) (by decide)
  exact ⟨h.1, (h.2.2.2.2.2 (by decide)).2.2.2, (h.2.2.2.2.2 (by decide)).1⟩

/-- C5: evidence for the dead unrequested-address check. A reply
echoing address `0x1`, which is not a key of the map `{2 ↦ 7}`, is not
rejected: the loop does not panic, runs to completion, records a
zero-count entry for the address, and adds 0 to the overall total —
because the Go missing-key read returns 0 and `addressCount < 0` can
never hold for a `uint32`. -/
theorem parseLineInfo_unrequested_address_processed :
    (parseLineInfo [(2, 7)] ["0x1".toList, "foo".toList, "x/./bar.c:3".toList]
        emptyProfileStats).isPanic = false
    ∧ (parseLineInfo [(2, 7)] ["0x1".toList, "foo".toList, "x/./bar.c:3".toList]
        emptyProfileStats).isDone = true
    ∧ lookupEntry (parseLineInfo [(2, 7)] ["0x1".toList, "foo".toList, "x/./bar.c:3".toList]
        emptyProfileStats).endStats.addresses ⟨1⟩ = some ⟨0⟩
    ∧ (parseLineInfo [(2, 7)] ["0x1".toList, "foo".toList, "x/./bar.c:3".toList]
        emptyProfileStats).endStats.overall.count = 0 :=
  ⟨by decide, by decide, by decide, by decide⟩

/-- C6, counterexample: an unparseable address line (`zzz`) does not
cause a fatal panic — the loop breaks, keeps the statistics already
accumulated (here a full reply worth 5 samples), and the pipeline still
prints a report from those partial statistics. -/
theorem parseLineInfo_bad_address_not_fatal :
    (parseLineInfo [(1, 5)]
        ["0x1".toList, "foo".toList, "a/./b.c:2".toList, "zzz".toList]
        emptyProfileStats).isPanic = false
    ∧ (parseLineInfo [(1, 5)]
        ["0x1".toList, "foo".toList, "a/./b.c:2".toList, "zzz".toList]
        emptyProfileStats).endStats.overall.count = 5
    ∧ (mainNonRaw
        [62, 1, 0, 0, 0, 62, 1, 0, 0, 0, 62, 1, 0, 0, 0, 62, 1, 0, 0, 0, 62, 1, 0, 0, 0]
        (some ["0x1".toList, "foo".toList, "a/./b.c:2".toList, "zzz".toList])).isSome
      = true :=
  ⟨by decide, by decide, by decide⟩

/-- C6, amended: a reply whose `filename:line` line does not match the
protocol pattern is a fatal panic aborting resolution; an unparseable
address line is not fatal — the loop breaks with the statistics
accumulated so far, and `main` still prints a report from them. -/
theorem parseLineInfo_malformed_reply_behavior :
    (∀ (addressCounts : List (Nat × Nat)) (aLine fLine lLine : List Char)
        (rest : List (List Char)) (stats : ProfileStats) (v : Nat),
        parseUint0 aLine = some v →
        filenameLineSplit lLine = none →
        parseLineInfo addressCounts (aLine :: fLine :: lLine :: rest) stats
          = .panicked lLine)
    ∧ (∀ (addressCounts : List (Nat × Nat)) (aLine : List Char)
        (rest : List (List Char)) (stats : ProfileStats),
        parseUint0 aLine = none →
        parseLineInfo addressCounts (aLine :: rest) stats = .badAddress aLine stats)
    ∧ (∀ (input : List Nat) (replyLines : List (List Char)) (aLine : List Char)
        (stats : ProfileStats),
        parseLineInfo (groupAddresses (parseProfileLog input)) replyLines emptyProfileStats
          = .badAddress aLine stats →
        mainNonRaw input (some replyLines) = some (mkReport stats)) := by
  refine ⟨?_, ?_, ?_⟩
  · intro addressCounts aL fL lL rest stats v hv hm
    conv_lhs => rw [parseLineInfo.eq_def]
    simp [hv, hm, Nat.not_lt_zero]
  · intro addressCounts aL rest stats h
    conv_lhs => rw [parseLineInfo.eq_def]
    simp [h]
  · intro input replyLines aL stats h
    have htr : translateAddressesToLineStats (groupAddresses (parseProfileLog input))
        (some replyLines) = some stats := by
      show (match parseLineInfo (groupAddresses (parseProfileLog input)) replyLines
              emptyProfileStats with
            | ResolveResult.done s => some s
            | ResolveResult.badAddress _ s => some s
            | ResolveResult.panicked _ => none) = some stats
      rw [h]
    show (match translateAddressesToLineStats (groupAddresses (parseProfileLog input))
            (some replyLines) with
          | none => none
          | some s => some (mkReport s)) = some (mkReport stats)
    rw [htr]

/-- C6, witness for the amended theorem: a non-matching filename line
panics; a bad address line returns with the statistics unchanged. -/
theorem parseLineInfo_malformed_reply_behavior_apply :
    parseLineInfo [] ["0x1".toList, "f".toList, "nope".toList] emptyProfileStats
      = .panicked "nope".toList
    ∧ parseLineInfo [] ["zz".toList] emptyProfileStats
      = .badAddress "zz".toList emptyProfileStats :=
  ⟨parseLineInfo_malformed_reply_behavior.1 [] "0x1".toList "f".toList "nope".toList []
      emptyProfileStats 1 (by decide) (by decide),
    parseLineInfo_malformed_reply_behavior.2.1 [] "zz".toList [] emptyProfileStats (by decide)⟩

/-- C7, counterexample: when the symbolizer fails to launch, the run
does not abort; `main` prints a full report with a zero total and empty
sections (here for a log containing one valid frame). -/
theorem mainNonRaw_launch_failure_report :
    mainNonRaw [62, 1, 0, 0, 0] none
      = some { total := 0, lines := [], functions := [], files := [] } := by
  decide

/-- C7, amended: on subprocess-launch failure the resolver prints an
error message and returns the still-empty statistics, and `main`
unconditionally prints a report with total 0 and three empty
sections — partial output is produced, the run does not abort. -/
theorem launch_failure_empty_report :
    (∀ addressCounts : List (Nat × Nat),
        translateAddressesToLineStats addressCounts none = some emptyProfileStats)
    ∧ (∀ input : List Nat,
        mainNonRaw input none
          = some { total := 0, lines := [], functions := [], files := [] }) :=
  ⟨fun _ => rfl, fun _ => rfl⟩

/-- C8, counterexample: for the reply `0x1` / `foo` / `./bar.c:10` with
count 5, no file entry `bar.c` is created — `^.*/\./` requires a `/./`
substring, which `./bar.c` does not contain, so the leading `./` is
not stripped. -/
theorem parseLineInfo_dot_slash_not_stripped :
    lookupEntry (parseLineInfo [(1, 5)]
        ["0x1".toList, "foo".toList, "./bar.c:10".toList]
        emptyProfileStats).endStats.files ⟨"bar.c".toList⟩ = none := by
  decide

/-- C8, amended: the scenario reply credits 5 samples to the File
Identity `./bar.c` (unchanged by path normalization, which strips only
prefixes ending in `/./`), 5 to the Line Identity (`foo`, `./bar.c`,
line 10, representative address 1), and 5 to the overall total. -/
theorem parseLineInfo_reply_scenario :
    (parseLineInfo [(1, 5)] ["0x1".toList, "foo".toList, "./bar.c:10".toList]
        emptyProfileStats).isDone = true
    ∧ lookupEntry (parseLineInfo [(1, 5)]
        ["0x1".toList, "foo".toList, "./bar.c:10".toList]
        emptyProfileStats).endStats.files ⟨"./bar.c".toList⟩ = some ⟨5⟩
    ∧ lookupEntry (parseLineInfo [(1, 5)]
        ["0x1".toList, "foo".toList, "./bar.c:10".toList]
        emptyProfileStats).endStats.lines
        ⟨10, ⟨"foo".toList, ⟨"./bar.c".toList⟩⟩⟩ = some ⟨1, 5⟩
    ∧ (parseLineInfo [(1, 5)] ["0x1".toList, "foo".toList, "./bar.c:10".toList]
        emptyProfileStats).endStats.overall.count = 5
    ∧ pathPrefixRemove "./bar.c".toList = "./bar.c".toList
    ∧ pathPrefixRemove "x/./bar.c".toList = "bar.c".toList :=
  ⟨by decide, by decide, by decide, by decide, by decide, by decide⟩

/-- C9: printing the top-lines report is total for every
`ProfileStats`: it always yields `min topN entries` lines, and with an
overall total of 0 every percentage is the defined IEEE value of a
zero-denominator `float32` division (`+Inf` or `NaN`), never a runtime
error. -/
theorem printLineStats_total_zero_safe (stats : ProfileStats) (topN : Nat) :
    (printLineStats stats topN).length = min topN stats.lines.length
    ∧ (stats.overall.count = 0 →
        (printLineStats stats topN).all (fun e => e.percent.isZeroDivValue) = true) := by
  constructor
  · unfold printLineStats
    rw [List.length_map, List.length_take, length_sortDesc]
  · intro h
    rw [List.all_eq_true]
    intro e he
    unfold printLineStats at he
    obtain ⟨p, _, hep⟩ := List.mem_map.mp he
    rw [← hep]
    simp only
    rw [h]
    by_cases hn : p.2.count * 100 % u32Mod = 0 <;>
      simp [float32Div, hn, GoFloat32.isZeroDivValue]

/-- C9, witness: a one-line statistics value with overall total 0. -/
theorem printLineStats_total_zero_safe_apply :
    (printLineStats
        ⟨[], [(⟨3, ⟨"f".toList, ⟨"a.c".toList⟩⟩⟩, ⟨7, 4⟩)], [], [], ⟨0⟩⟩ 1).length
      = min 1 (1 : Nat)
    ∧ (printLineStats
        ⟨[], [(⟨3, ⟨"f".toList, ⟨"a.c".toList⟩⟩⟩, ⟨7, 4⟩)], [], [], ⟨0⟩⟩ 1).all
        (fun e => e.percent.isZeroDivValue) = true :=
  ⟨(printLineStats_total_zero_safe
      ⟨[], [(⟨3, ⟨"f".toList, ⟨"a.c".toList⟩⟩⟩, ⟨7, 4⟩)], [], [], ⟨0⟩⟩ 1).1,
    (printLineStats_total_zero_safe
      ⟨[], [(⟨3, ⟨"f".toList, ⟨"a.c".toList⟩⟩⟩, ⟨7, 4⟩)], [], [], ⟨0⟩⟩ 1).2 rfl⟩

/-- C10: the four payload bytes after an accepted start marker are
consumed as address data even when they equal the marker byte `0x3E`:
the emit equations hold for all payload byte values, and the stream
`3E 3E 00 00 00` ending at end-of-input decodes to the single record
`0x0000003E`. -/
theorem parseProfileLog_payload_not_rescanned :
    (∀ b0 b1 b2 b3 : Nat, parseProfileLog [62, b0, b1, b2, b3] = [leU32 b0 b1 b2 b3])
    ∧ (∀ (b0 b1 b2 b3 : Nat) (rest : List Nat),
        parseProfileLog (62 :: b0 :: b1 :: b2 :: b3 :: 62 :: rest)
          = leU32 b0 b1 b2 b3 :: parseProfileLog (62 :: rest))
    ∧ parseProfileLog [62, 62, 0, 0, 0] = [62] :=
  ⟨parseProfileLog_frame_then_eos, parseProfileLog_frame_then_marker, by decide⟩

end CleanflightProfiler
